import Mathlib

/-!
Verification of the bank-statement authenticity checker (`backend/main.py`).

The Python source is shallowly embedded: Python `float` values are modelled
as exact rationals (`Rat`); Python strings are Lean `String`s manipulated via
their underlying `List Char`.  Byte-level PDF parsing (PyPDF2 / pdfplumber) is
external to the core: the core's view of a document is the page texts, the
producer/creator metadata strings, and the per-page detected tables of
optional string cells, which are the inputs of the embedded definitions.
-/

/-! ## Character and string primitives (Python `str` operations) -/

/-- Python whitespace stripping of `str.strip()` / `float`'s surrounding
whitespace, modelled on ASCII whitespace (space, tab, CR, LF). -/
def trimL (cs : List Char) : List Char :=
  ((cs.dropWhile Char.isWhitespace).reverse.dropWhile Char.isWhitespace).reverse

/-- `s.strip()` on a Lean `String`. -/
def strTrim (s : String) : String := ⟨trimL s.data⟩

/-- `s.lower()`, modelled on ASCII letters via `Char.toLower`. -/
def strLower (s : String) : String := ⟨s.data.map Char.toLower⟩

/-- Does `hay` start with `needle` (as character lists)? -/
def startsWithL : List Char → List Char → Bool
  | [], _ => true
  | _ :: _, [] => false
  | a :: as, b :: bs => a == b && startsWithL as bs

/-- Python's substring test `needle in hay` (character lists). -/
def containsL (needle : List Char) : List Char → Bool
  | [] => needle.isEmpty
  | c :: cs => startsWithL needle (c :: cs) || containsL needle cs

/-- Python's substring test `needle in hay` on strings. -/
def strIn (needle hay : String) : Bool := containsL needle.data hay.data

/-! ## Python `float(s)` on finite decimal literals

Python's grammar for `float` string conversion: optional surrounding
whitespace, optional sign, then a digit part with optional fraction and
optional exponent, where digit parts allow single underscores between
digits.  Python additionally accepts `inf`/`infinity`/`nan`; those produce
non-finite values which lie outside this rational model and are treated as
unparsed here — no theorem below depends on such inputs. -/

/-- Value of a digit character. -/
def digitVal (c : Char) : Nat := c.toNat - '0'.toNat

/-- Decimal value of a list of digit characters. -/
def digitsToNat (cs : List Char) : Nat := cs.foldl (fun n c => 10 * n + digitVal c) 0

/-- No two adjacent underscores. -/
def noUU (cs : List Char) : Bool := (cs.zip cs.tail).all (fun p => !(p.1 == '_' && p.2 == '_'))

/-- Python digit part: `digit (("_")? digit)*` — nonempty, all digits or
underscores, first and last are digits, no doubled underscore. -/
def validDigitPart (cs : List Char) : Bool :=
  !cs.isEmpty && cs.all (fun c => c.isDigit || c == '_') &&
    (cs.headD 'x').isDigit && (cs.getLastD 'x').isDigit && noUU cs

/-- Split at the first exponent marker `e`/`E` (marker removed). -/
def splitAtExpChar : List Char → List Char × Option (List Char)
  | [] => ([], none)
  | c :: cs =>
    if c = 'e' ∨ c = 'E' then ([], some cs)
    else
      let r := splitAtExpChar cs
      (c :: r.1, r.2)

/-- Split at the first `.` (dot removed). -/
def splitAtDot : List Char → List Char × Option (List Char)
  | [] => ([], none)
  | c :: cs =>
    if c = '.' then ([], some cs)
    else
      let r := splitAtDot cs
      (c :: r.1, r.2)

/-- Remove one leading sign character. -/
def dropSign : List Char → List Char
  | [] => []
  | c :: cs => if c = '+' ∨ c = '-' then cs else c :: cs

/-- Valid mantissa: `intpart [. [fracpart]]` or `. fracpart`. -/
def validMantissa (m : List Char) : Bool :=
  let s := splitAtDot m
  match s.2 with
  | none => validDigitPart s.1
  | some fp => (validDigitPart s.1 && (fp.isEmpty || validDigitPart fp)) ||
      (s.1.isEmpty && validDigitPart fp)

/-- Valid exponent: optional sign then a digit part. -/
def validExpPart (ex : List Char) : Bool := validDigitPart (dropSign ex)

/-- Is `cs` a valid finite Python float literal (no surrounding whitespace)? -/
def validFloatChars (cs : List Char) : Bool :=
  let cs1 := dropSign cs
  let s := splitAtExpChar cs1
  match s.2 with
  | none => validMantissa s.1
  | some ex => validMantissa s.1 && validExpPart ex

/-- Value of a valid mantissa. -/
def mantissaVal (m : List Char) : Rat :=
  let s := splitAtDot m
  match s.2 with
  | none => (digitsToNat (s.1.filter Char.isDigit) : Rat)
  | some fp => (digitsToNat ((s.1 ++ fp).filter Char.isDigit) : Rat) /
      (10 : Rat) ^ (fp.filter Char.isDigit).length

/-- Signed integer value of a valid exponent part. -/
def expVal (ex : List Char) : Int :=
  let n : Nat := digitsToNat ((dropSign ex).filter Char.isDigit)
  if ex.headD ' ' = '-' then -(n : Int) else (n : Int)

/-- `10 ^ e` for an integer exponent. -/
def tenPow (e : Int) : Rat :=
  if 0 ≤ e then (10 : Rat) ^ e.toNat else 1 / (10 : Rat) ^ (-e).toNat

/-- Value of a valid finite float literal. -/
def floatCharsVal (cs : List Char) : Rat :=
  let neg := cs.headD ' ' = '-'
  let cs1 := dropSign cs
  let s := splitAtExpChar cs1
  let mv := mantissaVal s.1
  let v := match s.2 with
    | none => mv
    | some ex => mv * tenPow (expVal ex)
  if neg then -v else v

/-- Python `float(s)` restricted to finite decimal literals: strips
surrounding whitespace, then parses sign/mantissa/exponent; returns `none`
exactly when Python raises `ValueError` (and, per the model restriction
above, on the non-finite literals `inf`/`nan`). -/
def floatOfChars? (cs : List Char) : Option Rat :=
  let t := trimL cs
  if validFloatChars t then some (floatCharsVal t) else none

/-! ## The money parser `_to_money` (src/backend/main.py lines 336-348) -/

/-- `s.replace(",", "").replace("£", "").replace(" ", "")`. -/
def stripSyms (cs : List Char) : List Char :=
  cs.filter (fun c => !(c == ',' || c == '£' || c == ' '))

/-- `if s.startswith("(") and s.endswith(")"): s = "-" + s[1:-1]`. -/
def parenNeg (cs : List Char) : List Char :=
  if cs.headD ' ' = '(' ∧ cs.getLastD ' ' = ')' then '-' :: (cs.drop 1).dropLast else cs

/-- The nested money parser of `extract_transactions_pdfplumber`: `None`
and the empty / all-whitespace string parse to `None`; thousands commas,
pound signs and spaces are removed; a parenthesised value is negated; the
result is the `float` cast, `None` when it fails. -/
def _to_money (x : Option String) : Option Rat :=
  match x with
  | none => none
  | some x0 =>
    if x0.data = [] then none
    else if trimL x0.data = [] then none
    else floatOfChars? (parenNeg (stripSyms (trimL x0.data)))

/-! ## Transaction extraction (`extract_transactions_pdfplumber`, lines 333-415)

pdfplumber itself is an external capability: the embedding takes, per page,
the list of detected tables, each a header row plus data rows of optional
string cells, exactly the shape `page.extract_tables()` returns. -/

/-- A table cell as returned by pdfplumber (`None` representable). -/
abbrev Cell := Option String

/-- A detected table: row 0 is the header row. -/
abbrev TableData := List (List Cell)

/-- An extracted transaction row. -/
structure Tx where
  page : Nat
  row : Nat
  debit : Rat
  credit : Rat
  balance : Rat
  date : Cell
deriving Repr, DecidableEq

/-- `(h or "").strip().lower()` applied to a header cell. -/
def normHeader (h : Cell) : String := strLower (strTrim (h.getD ""))

/-- The normalised header row (`table[0]`). -/
def headersOf (table : TableData) : List String := (table.headD []).map normHeader

/-- Independent debit/credit parsing: 0.0 if the column is absent, out of
range, or unparseable, otherwise the absolute value of the parsed cell. -/
def parsedAbs (idx : Option Nat) (row : List Cell) : Rat :=
  match idx with
  | some i =>
    if i < row.length then
      match _to_money (row.getD i none) with
      | some v => |v|
      | none => 0
    else 0
  | none => 0

/-- Amount-column override: a parsed negative amount sets `debit = |amount|`
(leaving credit), a parsed non-negative amount sets `credit = amount`
(leaving debit); an absent or unparseable amount changes nothing. -/
def amountOverride (idx : Option Nat) (row : List Cell) (debit credit : Rat) : Rat × Rat :=
  match idx with
  | some i =>
    if i < row.length then
      match _to_money (row.getD i none) with
      | some a => if a < 0 then (|a|, credit) else (debit, a)
      | none => (debit, credit)
    else (debit, credit)
  | none => (debit, credit)

/-- One data row of a kept table (`row_idx` counts from 2, as in
`enumerate(table[1:], start=2)`): skipped when empty or when the balance
column is out of range or unparseable; otherwise one full transaction. -/
def extractRow (pageIdx rowIdx : Nat) (dateIdx debitIdx creditIdx amountIdx : Option Nat)
    (balanceIdx : Nat) (row : List Cell) : Option Tx :=
  if row = [] ∨ row.length ≤ balanceIdx then none
  else
    match _to_money (row.getD balanceIdx none) with
    | none => none
    | some bal =>
      let debit := parsedAbs debitIdx row
      let credit := parsedAbs creditIdx row
      let dc := amountOverride amountIdx row debit credit
      some { page := pageIdx + 1, row := rowIdx, debit := dc.1, credit := dc.2, balance := bal,
             date := match dateIdx with
                     | some i => if i < row.length then row.getD i none else none
                     | none => none }

/-- One detected table: tables with fewer than 2 rows, and tables whose
header row has no cell containing "balance", are skipped entirely. -/
def extractTable (pageIdx : Nat) (table : TableData) : List Tx :=
  if table.length < 2 then []
  else
    let headers := headersOf table
    match headers.findIdx? (fun h => strIn "balance" h) with
    | none => []
    | some balanceIdx =>
      let dateIdx := headers.findIdx? (fun h => strIn "date" h)
      let debitIdx := headers.findIdx? (fun h => strIn "debit" h || strIn "paid out" h || h == "out")
      let creditIdx := headers.findIdx? (fun h => strIn "credit" h || strIn "paid in" h || h == "in")
      let amountIdx := headers.findIdx? (fun h => strIn "amount" h)
      (table.drop 1).enum.filterMap
        (fun ir => extractRow pageIdx (ir.1 + 2) dateIdx debitIdx creditIdx amountIdx balanceIdx ir.2)

/-- `extract_transactions_pdfplumber`, given the per-page table detection
results (page indices are 0-based in encounter order, as in
`enumerate(pdf.pages)`). -/
def extract_transactions_pdfplumber (pages : List (List TableData)) : List Tx :=
  pages.enum.flatMap (fun pt => pt.2.flatMap (extractTable pt.1))

/-! ## Running balance verification (`running_balance_check_rows`, lines 418-453) -/

/-- Rendering of Python's `f"{x:.2f}"` for the warning texts, modelled as
round-to-2-places (Python uses the float's shortest-round digits with
banker's rounding; no theorem below depends on the digit content). -/
def fmt2 (q : Rat) : String :=
  let n : Int := round (q * 100)
  let a := n.natAbs
  (if n < 0 then "-" else "") ++ toString (a / 100) ++ "." ++
    (if a % 100 < 10 then "0" else "") ++ toString (a % 100)

/-- `expected = prev["balance"] + curr["credit"] - curr["debit"]`. -/
def expectedOf (prev curr : Tx) : Rat := prev.balance + curr.credit - curr.debit

/-- Is an adjacent pair an arithmetic mismatch (tolerance 0.01)? -/
def pairMismatch (prev curr : Tx) : Bool :=
  decide ((0.01 : Rat) < |expectedOf prev curr - curr.balance|)

/-- The mismatch warning text. -/
def mismatchMsg (curr : Tx) (expected : Rat) : String :=
  "Running balance: mismatch on page " ++ toString curr.page ++ " row " ++ toString curr.row ++
    " (expected £" ++ fmt2 expected ++ ", saw £" ++ fmt2 curr.balance ++ ")."

/-- Loop body of `_count_mismatches`: count every mismatch, and keep the
warning text for the first 5 of them. -/
def cmStep (acc : Nat × List String) (pc : Tx × Tx) : Nat × List String :=
  if pairMismatch pc.1 pc.2 then
    (acc.1 + 1,
      if acc.1 + 1 ≤ 5 then acc.2 ++ [mismatchMsg pc.2 (expectedOf pc.1 pc.2)] else acc.2)
  else acc

/-- `_count_mismatches(rows)`: fold over the adjacent pairs
`(rows[i-1], rows[i])` for `i = 1 .. len(rows)-1`. -/
def _count_mismatches (rows : List Tx) : Nat × List String :=
  (rows.zip rows.tail).foldl cmStep (0, [])

/-- The insufficient-data warning. -/
def insufficientMsg : String := "Running balance: not enough extracted rows to validate."

/-- The truncation summary warning. -/
def manyMsg : String := "Running balance: many inconsistencies detected (showing first 5)."

/-- `running_balance_check_rows`: fewer than 3 rows gives the single
insufficient-data warning; otherwise mismatches are counted over the
encounter order and the reversed order, the orientation with strictly
fewer mismatches wins (ties favour the encounter order), and a summary
line is appended when the chosen count is at least 5. -/
def running_balance_check_rows (transactions : List Tx) : List String :=
  if transactions.length < 3 then [insufficientMsg]
  else
    let fwd := _count_mismatches transactions
    let rev := _count_mismatches transactions.reverse
    let best := if rev.1 < fwd.1 then rev else fwd
    if 5 ≤ best.1 then best.2 ++ [manyMsg] else best.2

/-! ## Layout anomaly detection (`layout_anomaly_check`, lines 299-330) -/

/-- Count of `str.splitlines()`, modelled over `\n`, `\r\n` and `\r`
terminators (Python also splits on a few rarer control characters; no
theorem below depends on them). -/
def countLinesAux : List Char → Bool → Nat
  | [], inLine => if inLine then 1 else 0
  | '\r' :: '\n' :: rest, _ => 1 + countLinesAux rest false
  | c :: rest, _ =>
    if c = '\n' ∨ c = '\r' then 1 + countLinesAux rest false else countLinesAux rest true

/-- `len(p.splitlines())`. -/
def countLines (s : String) : Nat := countLinesAux s.data false

/-- Match a literal at the head, returning the rest. -/
def litHere : List Char → List Char → Option (List Char)
  | [], rest => some rest
  | _ :: _, [] => none
  | l :: ls, c :: cs => if c = l then litHere ls cs else none

/-- Match one-or-more characters of a class at the head (`\s+` / `\d+`). -/
def plusRun (p : Char → Bool) : List Char → Option (List Char)
  | [] => none
  | c :: rest => if p c then some (rest.dropWhile p) else none

/-- Does the regex `page\s+\d+\s+of\s+\d+` match starting here?  (The
character classes of adjacent tokens are disjoint, so greedy runs are
exact.) -/
def markerHere (cs : List Char) : Bool :=
  (do
    let r1 ← litHere ['p', 'a', 'g', 'e'] cs
    let r2 ← plusRun Char.isWhitespace r1
    let r3 ← plusRun Char.isDigit r2
    let r4 ← plusRun Char.isWhitespace r3
    let r5 ← litHere ['o', 'f'] r4
    let r6 ← plusRun Char.isWhitespace r5
    let _ ← plusRun Char.isDigit r6
    some ()).isSome

/-- `re.search(r"page\s+\d+\s+of\s+\d+", txt)`: a match at any position. -/
def hasPageMarker (s : String) : Bool := s.data.tails.any markerHere

/-- `layout_anomaly_check(pages_text)`: header-completeness on page 1,
internal pages with under half the mean internal line count, and partial
page-numbering markers. -/
def layout_anomaly_check (pages_text : List String) : List String :=
  if pages_text = [] then []
  else
    let num_pages := pages_text.length
    let first := strLower (pages_text.headD "")
    let header_tokens := ["account", "sort code", "statement", "period"]
    let header_hits := (header_tokens.filter (fun tok => strIn tok first)).length
    let w1 : List String :=
      if header_hits ≤ 1 then ["Layout: key header fields look missing/unclear on page 1."]
      else []
    let line_counts := pages_text.map countLines
    let w2 : List String :=
      if 3 ≤ num_pages then
        let internal := (line_counts.drop 1).dropLast
        let avg_lines : Rat := ((internal.sum : Nat) : Rat) / ((max 1 internal.length : Nat) : Rat)
        ((List.range (num_pages - 1)).drop 1).filterMap (fun idx =>
          if 0 < avg_lines ∧ ((line_counts.getD idx 0 : Nat) : Rat) < 0.5 * avg_lines then
            some ("Layout: page " ++ toString (idx + 1) ++
              " has far fewer text lines than other pages.")
          else none)
      else []
    let pages_with_marker :=
      (pages_text.enum.filter (fun p => hasPageMarker (strLower p.2))).map Prod.fst
    let w3 : List String :=
      if 0 < pages_with_marker.length ∧ pages_with_marker.length < num_pages then
        let missing := ((List.range num_pages).filter
            (fun i => !(pages_with_marker.contains i))).map (fun i => toString (i + 1))
        ["Layout: page numbering marker appears on some pages but missing on: " ++
          String.intercalate ", " missing]
      else []
    w1 ++ w2 ++ w3

/-! ## AI-generation signals (`ai_generation_signals`, lines 456-495) -/

def strong_ai_tools : List String :=
  ["reportlab", "weasyprint", "wkhtmltopdf", "langchain", "playwright", "puppeteer",
   "headlesschrome", "chatgpt", "openai", "gpt"]

def generic_signals : List String := ["pdf generator", "generator"]

/-- `ai_generation_signals(meta_text)`: metadata-only AI/synthetic
indicator level and reasons. -/
def ai_generation_signals (meta_text : String) : String × List String :=
  let lower := strTrim (strLower meta_text)
  if strong_ai_tools.any (fun x => strIn x lower) then
    ("strong", ["AI/synthetic indicator: metadata mentions an automated generation tool."])
  else if lower = "" then
    ("possible",
     ["AI/synthetic indicator: metadata missing (common in automated PDFs, but also common in real exports)."])
  else if generic_signals.any (fun x => strIn x lower) then
    ("possible", ["AI/synthetic indicator: metadata suggests a generic PDF generator (weak evidence)."])
  else ("none", [])

/-! ## The aggregator `run_basic_checks` (lines 60-296)

The accumulator `(score, reasons, sections)` is threaded through the checks
in source order.  The two impure call sites are abstracted as inputs: the
outcome of `extract_transactions_pdfplumber(file_bytes)` at line 249 is the
`Except`-valued `txTry` (an `error` is the exception the `try` at line 248
catches), and `rbErr` injects an exception at the `running_balance_check_rows`
call site at line 264 (`none` means the call returns normally, which in this
embedding it always does; the handler at line 265 is still modelled). -/

/-- The five grouped reason lists. -/
structure Sections where
  integrity : List String
  branding : List String
  layout : List String
  transactions : List String
  ai : List String
deriving Repr, DecidableEq

/-- The mutable state of `run_basic_checks`: score plus flat and grouped
reasons. -/
structure St where
  score : Rat
  reasons : List String
  sections : Sections
deriving Repr, DecidableEq

/-- `score = 1.0`, everything else empty. -/
def initSt : St := ⟨1, [], ⟨[], [], [], [], []⟩⟩

/-- The `ai_info` result object. -/
structure AiInfo where
  level : String
  summary : List String
  note : String
deriving Repr, DecidableEq

/-- The result tuple of `run_basic_checks`. -/
structure CheckOutput where
  verdict : String
  confidence : Rat
  reasons : List String
  bank : String
  sections : Sections
  ai_generated : AiInfo
deriving Repr, DecidableEq

/-- The core's view of one parsed document: per-page extracted text (one
entry per page, empty string for a page with no text) and the two metadata
strings (the `getattr`/`"/Producer"` fallback chain already applied, before
the `.strip()` of lines 100-101). -/
structure CheckInput where
  pagesText : List String
  producer : String
  creator : String
deriving Repr, DecidableEq

/-- STRUCTURAL CHECKS (lines 85-94): the page-count penalty. -/
def structuralStep (num_pages : Nat) (st : St) : St :=
  if 12 < num_pages then
    let msg := "Unusual page count: " ++ toString num_pages ++ " pages."
    ⟨st.score - 0.15, st.reasons ++ [msg],
     {st.sections with layout := st.sections.layout ++ [msg]}⟩
  else if 8 < num_pages then
    let msg := "High page count: " ++ toString num_pages ++ " pages."
    ⟨st.score - 0.08, st.reasons ++ [msg],
     {st.sections with layout := st.sections.layout ++ [msg]}⟩
  else st

/-- `lower_meta` (line 102): producer and creator stripped, joined, lowered,
stripped. -/
def lowerMetaOf (producerRaw creatorRaw : String) : String :=
  strTrim (strLower (strTrim producerRaw ++ " " ++ strTrim creatorRaw))

def high_risk_editors : List String :=
  ["microsoft word", "powerpoint", "excel", "libreoffice", "openoffice",
   "photoshop", "indesign", "canva", "figma", "nitro", "foxit",
   "phantompdf", "pdf-xchange", "pdf editor", "smallpdf", "ilovepdf",
   "sejda", "pdfelement", "wondershare"]

def medium_risk_tools : List String :=
  ["pdfcreator", "cutepdf", "primopdf", "pdf printer",
   "google docs", "google drive", "camscanner", "scanner"]

def banklike_or_os : List String :=
  ["pdfkit", "quartz", "ios", "mac os", "coregraphics", "skia", "pdfium",
   "adobe", "chrome", "chromium"]

/-- The `strong_edit_signal` flag (lines 134-145): set exactly when the
metadata is non-empty and mentions a high-risk editor. -/
def metaFlag (lower_meta : String) : Bool :=
  if lower_meta = "" then false
  else high_risk_editors.any (fun x => strIn x lower_meta)

/-- Append an integrity message with a new score. -/
def addIntegrity (newScore : Rat) (msg : String) (st : St) : St :=
  ⟨newScore, st.reasons ++ [msg],
   {st.sections with integrity := st.sections.integrity ++ [msg]}⟩

/-- Append an ai message with a new score. -/
def addAi (newScore : Rat) (msg : String) (st : St) : St :=
  ⟨newScore, st.reasons ++ [msg], {st.sections with ai := st.sections.ai ++ [msg]}⟩

/-- METADATA CHECKS (lines 96-175): AI summary, the integrity tier of the
producer/creator (high/medium/banklike/unknown/missing), and the AI-level
penalties; returns the updated state, `strong_edit_signal`, and `ai_info`. -/
def metadataStep (producerRaw creatorRaw : String) (st : St) : St × Bool × AiInfo :=
  let producer := strTrim producerRaw
  let creator := strTrim creatorRaw
  let lower_meta := lowerMetaOf producerRaw creatorRaw
  let ai := ai_generation_signals lower_meta
  let ai_info : AiInfo :=
    ⟨ai.1,
     if ai.2.isEmpty then ["No strong AI/synthetic indicators found in PDF metadata."] else ai.2,
     "This is metadata-based only (not a guarantee)."⟩
  let st1 : St := ⟨st.score, st.reasons ++ ai_info.summary,
    {st.sections with ai := st.sections.ai ++ ai_info.summary}⟩
  let shown := if producer = "" then creator else producer
  let st2 :=
    if lower_meta = "" then
      addIntegrity (st1.score - 0.03)
        "Metadata: minimal or missing (can be normal for app-generated statements)." st1
    else if high_risk_editors.any (fun x => strIn x lower_meta) then
      addIntegrity (st1.score - 0.55)
        ("Metadata: shows possible editing tool (\x27" ++ shown ++ "\x27).") st1
    else if medium_risk_tools.any (fun x => strIn x lower_meta) then
      addIntegrity (st1.score - 0.10)
        ("Metadata: shows generic PDF tool (\x27" ++ shown ++ "\x27).") st1
    else if banklike_or_os.any (fun x => strIn x lower_meta) then
      addIntegrity st1.score ("Metadata: looks system-generated (\x27" ++ shown ++ "\x27).") st1
    else
      addIntegrity (st1.score - 0.03)
        ("Metadata: unrecognised producer/creator (\x27" ++ shown ++ "\x27).") st1
  let st3 :=
    if ai.1 = "strong" then
      addAi (st2.score - 0.20) "AI indicator: strong metadata signal of automated generation." st2
    else if ai.1 = "possible" then
      addAi (st2.score - 0.05) "AI indicator: possible metadata signal (weak evidence)." st2
    else st2
  (st3, metaFlag lower_meta, ai_info)

/-- The ordered bank branding token map (lines 190-205). -/
def bank_tokens : List (String × List String) :=
  [("Lloyds", ["lloyds"]), ("Barclays", ["barclays"]), ("HSBC", ["hsbc"]),
   ("NatWest", ["natwest"]), ("RBS", ["royal bank of scotland", "rbs"]),
   ("Halifax", ["halifax"]), ("Santander", ["santander"]), ("Nationwide", ["nationwide"]),
   ("TSB", ["tsb"]), ("Monzo", ["monzo"]), ("Starling", ["starling"]),
   ("Revolut", ["revolut"]), ("Metro Bank", ["metro bank"]), ("Virgin Money", ["virgin money"])]

/-- BANK BRANDING CHECK (lines 187-222): first matching bank in declaration
order, small penalty when unknown, small bonus when detected. -/
def brandingStep (first_lower : String) (st : St) : St × String :=
  let detected :=
    (((bank_tokens.find? (fun bt => bt.2.any (fun t => strIn t first_lower))).map
      Prod.fst).getD "unknown")
  if detected = "unknown" then
    (⟨st.score - 0.06, st.reasons ++ ["Branding: bank name not matched to current list."],
      {st.sections with branding :=
        st.sections.branding ++ ["Branding: bank name not matched to current list."]}⟩,
     "unknown")
  else
    let msg := "Branding: detected \x27" ++ detected ++ "\x27 on page 1."
    (⟨st.score + 0.05, st.reasons ++ [msg],
      {st.sections with branding := st.sections.branding ++ [msg]}⟩, detected)

/-- SIMPLE CONTENT CHECK (lines 224-231). -/
def contentStep (first_lower : String) (st : St) : St :=
  if strIn "balance" first_lower then st
  else
    let msg := "Content: \x27balance\x27 not found on page 1 (not always an issue)."
    ⟨st.score - 0.03, st.reasons ++ [msg],
     {st.sections with layout := st.sections.layout ++ [msg]}⟩

/-- LAYOUT CHECKS (lines 233-240). -/
def layoutStep (pages_text : List String) (st : St) : St :=
  let w := layout_anomaly_check pages_text
  if w = [] then st
  else ⟨st.score - 0.05, st.reasons ++ w,
    {st.sections with layout := st.sections.layout ++ w}⟩

def parseErrorMsg (e : String) : String := "Transactions: parse error (" ++ e ++ ")."

def noTablesMsg : String :=
  "Transactions: could not extract structured tables (common for some bank/app PDFs)."

def rbErrorMsg (e : String) : String := "Running balance check error: " ++ e

/-- The `except` handler at lines 250-254: message only, `txs = []`. -/
def parseErrorUpdate (e : String) (st : St) : St :=
  ⟨st.score, st.reasons ++ [parseErrorMsg e],
   {st.sections with transactions := st.sections.transactions ++ [parseErrorMsg e]}⟩

/-- The `if not txs` branch at lines 256-261: tiny penalty plus message. -/
def noTablesUpdate (st : St) : St :=
  ⟨st.score - 0.02, st.reasons ++ [noTablesMsg],
   {st.sections with transactions := st.sections.transactions ++ [noTablesMsg]}⟩

/-- The `except` handler at lines 265-269: message only, `rb_warnings = []`. -/
def rbErrorUpdate (e : String) (st : St) : St :=
  ⟨st.score, st.reasons ++ [rbErrorMsg e],
   {st.sections with transactions := st.sections.transactions ++ [rbErrorMsg e]}⟩

/-- TRANSACTION EXTRACTION + RUNNING BALANCE (lines 242-274). -/
def transactionsStep (txTry : Except String (List Tx)) (rbErr : Option String) (st : St) : St :=
  match txTry with
  | Except.error e => noTablesUpdate (parseErrorUpdate e st)
  | Except.ok txs =>
    if txs = [] then noTablesUpdate st
    else
      match rbErr with
      | some e => rbErrorUpdate e st
      | none =>
        let rb := running_balance_check_rows txs
        if rb = [] then st
        else ⟨st.score - 0.30, st.reasons ++ rb,
          {st.sections with transactions := st.sections.transactions ++ rb}⟩

/-- All checks after the structural (page-count) one, in source order. -/
def checksAfterStructural (inp : CheckInput) (txTry : Except String (List Tx))
    (rbErr : Option String) (st : St) : St × Bool × AiInfo × String :=
  let m := metadataStep inp.producer inp.creator st
  let first_lower := strLower (inp.pagesText.headD "")
  let b := brandingStep first_lower m.1
  let st4 := contentStep first_lower b.1
  let st5 := layoutStep inp.pagesText st4
  let st6 := transactionsStep txTry rbErr st5
  (st6, m.2.1, m.2.2, b.2)

/-- Everything before score normalisation, from the initial state. -/
def checksCore (inp : CheckInput) (txTry : Except String (List Tx))
    (rbErr : Option String) : St × Bool × AiInfo × String :=
  checksAfterStructural inp txTry rbErr (structuralStep inp.pagesText.length initSt)

/-- The accumulated score before the single final clamp. -/
def preScore (inp : CheckInput) (txTry : Except String (List Tx))
    (rbErr : Option String) : Rat :=
  (checksCore inp txTry rbErr).1.score

/-- NORMALISE SCORE (line 279): `max(0.05, min(score, 1.0))`. -/
def clampedScore (inp : CheckInput) (txTry : Except String (List Tx))
    (rbErr : Option String) : Rat :=
  max 0.05 (min (preScore inp txTry rbErr) 1)

/-- `strong_edit_signal` as a function of the input document. -/
def strongEditSignal (inp : CheckInput) : Bool := metaFlag (lowerMetaOf inp.producer inp.creator)

def fakeMsg : String :=
  "Overall: high risk signals found — recommend requesting an original statement directly from the bank."

def suspiciousMsg : String := "Overall: some elements need review — recommend manual checks."

def genuineMsg : String :=
  "Overall: looks consistent with a bank-generated PDF (not proof of authenticity)."

/-- `run_basic_checks`: raises (`Except.error`) on a zero-page document,
otherwise runs every check, clamps the score once, and buckets the verdict
(first match wins): `strong_edit_signal` or score < 0.55 → likely_fake,
score < 0.82 → suspicious, otherwise likely_genuine. -/
def run_basic_checks (inp : CheckInput) (txTry : Except String (List Tx))
    (rbErr : Option String) : Except String CheckOutput :=
  if inp.pagesText.length = 0 then Except.error "Empty PDF"
  else
    if (checksCore inp txTry rbErr).2.1 = true ∨ clampedScore inp txTry rbErr < 0.55 then
      Except.ok ⟨"likely_fake", clampedScore inp txTry rbErr,
        (checksCore inp txTry rbErr).1.reasons ++ [fakeMsg],
        (checksCore inp txTry rbErr).2.2.2, (checksCore inp txTry rbErr).1.sections,
        (checksCore inp txTry rbErr).2.2.1⟩
    else if clampedScore inp txTry rbErr < 0.82 then
      Except.ok ⟨"suspicious", clampedScore inp txTry rbErr,
        (checksCore inp txTry rbErr).1.reasons ++ [suspiciousMsg],
        (checksCore inp txTry rbErr).2.2.2, (checksCore inp txTry rbErr).1.sections,
        (checksCore inp txTry rbErr).2.2.1⟩
    else
      Except.ok ⟨"likely_genuine", clampedScore inp txTry rbErr,
        (checksCore inp txTry rbErr).1.reasons ++ [genuineMsg],
        (checksCore inp txTry rbErr).2.2.2, (checksCore inp txTry rbErr).1.sections,
        (checksCore inp txTry rbErr).2.2.1⟩

/-! ## Concrete documents and rows used to exhibit the properties -/

def emptyDoc : CheckInput := ⟨[], "", ""⟩

def plainDoc : CheckInput := ⟨["x"], "", ""⟩

def wordDoc : CheckInput := ⟨["hello"], "Microsoft Word", ""⟩

/-- A document hitting every penalty at once (13 pages, editor + AI
metadata, no branding, no balance text, layout warnings, balance
mismatches): its accumulated score is -0.34 before clamping. -/
def heavyDoc : CheckInput := ⟨List.replicate 13 "x", "Microsoft Word chatgpt", ""⟩

/-- Three rows whose running balance is inconsistent in both orders. -/
def txBad : List Tx := [⟨1, 2, 0, 0, 100, none⟩, ⟨1, 3, 0, 0, 999, none⟩, ⟨1, 4, 0, 0, 5, none⟩]

/-- Two extracted rows (fewer than 3). -/
def rows2 : List Tx := [⟨1, 2, 0, 0, 100, none⟩, ⟨1, 3, 0, 0, 101, none⟩]

/-- Five rows whose running balance is consistent only in reversed order
(4 mismatches forward, 0 reversed). -/
def ex5 : List Tx :=
  [⟨1, 6, 2, 0, 11, none⟩, ⟨1, 5, 0, 1, 13, none⟩, ⟨1, 4, 3, 0, 12, none⟩,
   ⟨1, 3, 0, 5, 15, none⟩, ⟨1, 2, 0, 0, 10, none⟩]

def defaultOut : CheckOutput := ⟨"", 0, [], "", ⟨[], [], [], [], []⟩, ⟨"", [], ""⟩⟩

/-- The payload of a successful run. -/
def outOf (r : Except String CheckOutput) : CheckOutput := r.toOption.getD defaultOut

def wordOut : CheckOutput := outOf (run_basic_checks wordDoc (Except.ok []) none)

def heavyOut : CheckOutput := outOf (run_basic_checks heavyDoc (Except.ok txBad) none)

/-- A table whose headers are Date and Amount only (no balance column). -/
def tblNoBal : TableData := [[some "Date", some "Amount"], [some "1 Jan", some "5.00"]]

/-- A data row with an amount cell at index 0 and a balance cell at 1. -/
def rowAmt : List Cell := [some "5.00", some "100.00"]

/-- The characters a valid finite float literal can contain. -/
def floatAllowedChar (c : Char) : Bool :=
  c.isDigit || c == '_' || c == '.' || c == '+' || c == '-' || c == 'e' || c == 'E'

/-- The ASCII letters that play no role anywhere in Python float syntax
(everything but the exponent markers e/E and the letters of
`inf`/`infinity`/`nan`). -/
def badLetterList : List Char :=
  ['b', 'c', 'd', 'g', 'h', 'j', 'k', 'l', 'm', 'o', 'p', 'q', 'r', 's', 'u', 'v', 'w', 'x', 'z',
   'B', 'C', 'D', 'G', 'H', 'J', 'K', 'L', 'M', 'O', 'P', 'Q', 'R', 'S', 'U', 'V', 'W', 'X', 'Z']

/-- Is `c` a letter with no role in float syntax? -/
def isBadLetter (c : Char) : Bool := decide (c ∈ badLetterList)

/-! ## Theorems -/

/-- C9: a zero-page document makes `run_basic_checks` raise (`ValueError
("Empty PDF")`, modelled as `Except.error`), producing no verdict, score or
reasons; with at least one page this error is never raised and a full
result is produced. -/
theorem zero_page_raises (inp : CheckInput) (txTry : Except String (List Tx))
    (rbErr : Option String) :
    (inp.pagesText.length = 0 → run_basic_checks inp txTry rbErr = Except.error "Empty PDF") ∧
    (inp.pagesText.length ≠ 0 → ∃ out, run_basic_checks inp txTry rbErr = Except.ok out) := by
  constructor
  · intro h
    simp [run_basic_checks, h]
  · intro h
    unfold run_basic_checks
    rw [if_neg h]
    split
    · exact ⟨_, rfl⟩
    · split
      · exact ⟨_, rfl⟩
      · exact ⟨_, rfl⟩

/-- Witness for C9 at concrete documents. -/
theorem zero_page_raises_witness :
    run_basic_checks emptyDoc (Except.ok []) none = Except.error "Empty PDF" ∧
    (∃ out, run_basic_checks plainDoc (Except.ok []) none = Except.ok out) :=
  ⟨(zero_page_raises emptyDoc (Except.ok []) none).1 rfl,
   (zero_page_raises plainDoc (Except.ok []) none).2 (by decide)⟩

/-- C10: the page-count penalty is the first check applied (the rest of the
pipeline runs on its output state): more than 12 pages costs 0.15 with the
"Unusual page count" layout message, 9-12 pages costs 0.08 with the "High
page count" layout message, and 8 or fewer pages changes nothing. -/
theorem page_count_penalty (inp : CheckInput) (txTry : Except String (List Tx))
    (rbErr : Option String) (st : St) (n : Nat) :
    (12 < n → structuralStep n st =
      ⟨st.score - 0.15, st.reasons ++ ["Unusual page count: " ++ toString n ++ " pages."],
       {st.sections with layout :=
         st.sections.layout ++ ["Unusual page count: " ++ toString n ++ " pages."]}⟩) ∧
    (8 < n → n ≤ 12 → structuralStep n st =
      ⟨st.score - 0.08, st.reasons ++ ["High page count: " ++ toString n ++ " pages."],
       {st.sections with layout :=
         st.sections.layout ++ ["High page count: " ++ toString n ++ " pages."]}⟩) ∧
    (n ≤ 8 → structuralStep n st = st) ∧
    checksCore inp txTry rbErr =
      checksAfterStructural inp txTry rbErr (structuralStep inp.pagesText.length initSt) := by
  refine ⟨?_, ?_, ?_, rfl⟩
  · intro h
    simp [structuralStep, h]
  · intro h1 h2
    have h3 : ¬ 12 < n := by omega
    simp [structuralStep, h1, h3]
  · intro h
    have h1 : ¬ 12 < n := by omega
    have h2 : ¬ 8 < n := by omega
    simp [structuralStep, h1, h2]

/-- Witness for C10 at a concrete page count and state. -/
theorem page_count_penalty_witness :
    structuralStep 13 initSt =
      ⟨(1 : Rat) - 0.15, [] ++ ["Unusual page count: " ++ toString 13 ++ " pages."],
       ⟨[], [], [] ++ ["Unusual page count: " ++ toString 13 ++ " pages."], [], []⟩⟩ :=
  (page_count_penalty emptyDoc (Except.ok []) none initSt 13).1 (by decide)

/-- C8: a failure of transaction extraction (`txTry = error e`) or of the
running-balance check (`rbErr = some e`) never propagates: it becomes one
informational message appended to both the flat reasons and the
`transactions` section, the component's output is treated as empty (an
extraction failure scores exactly like "no tables found"), and the
analysis still produces a verdict. -/
theorem component_failures_absorbed (inp : CheckInput) (txTry : Except String (List Tx))
    (rbErr : Option String) (st : St) (e : String) (rows : List Tx) :
    (transactionsStep (Except.error e) rbErr st =
      ⟨st.score - 0.02, st.reasons ++ [parseErrorMsg e, noTablesMsg],
       {st.sections with transactions :=
         st.sections.transactions ++ [parseErrorMsg e, noTablesMsg]}⟩) ∧
    ((transactionsStep (Except.error e) rbErr st).score =
      (transactionsStep (Except.ok []) rbErr st).score) ∧
    (rows ≠ [] → transactionsStep (Except.ok rows) (some e) st =
      ⟨st.score, st.reasons ++ [rbErrorMsg e],
       {st.sections with transactions := st.sections.transactions ++ [rbErrorMsg e]}⟩) ∧
    (inp.pagesText.length ≠ 0 →
      (∃ out, run_basic_checks inp (Except.error e) rbErr = Except.ok out) ∧
      (∃ out, run_basic_checks inp txTry (some e) = Except.ok out)) := by
  refine ⟨?_, rfl, ?_, ?_⟩
  · simp [transactionsStep, noTablesUpdate, parseErrorUpdate]
  · intro h
    simp [transactionsStep, rbErrorUpdate, h]
  · intro h
    exact ⟨(zero_page_raises inp (Except.error e) rbErr).2 h,
           (zero_page_raises inp txTry (some e)).2 h⟩

/-- Witness for C8 at a concrete state and failure. -/
theorem component_failures_absorbed_witness :
    transactionsStep (Except.ok rows2) (some "boom") initSt =
      ⟨(1 : Rat), [] ++ [rbErrorMsg "boom"], ⟨[], [], [], [] ++ [rbErrorMsg "boom"], []⟩⟩ :=
  (component_failures_absorbed plainDoc (Except.ok []) none initSt "boom" rows2).2.2.1
    (by decide)

/-- The strong-edit flag returned by the pipeline is `strongEditSignal`. -/
theorem checksCore_flag (inp : CheckInput) (txTry : Except String (List Tx))
    (rbErr : Option String) : (checksCore inp txTry rbErr).2.1 = strongEditSignal inp := rfl

/-- A non-empty metadata string follows from any high-risk hit. -/
theorem metaFlag_of_any (m : String)
    (hx : (high_risk_editors.any (fun x => strIn x m)) = true) : metaFlag m = true := by
  unfold metaFlag
  by_cases hm : m = ""
  · rw [hm] at hx
    exact absurd hx (by decide)
  · rw [if_neg hm]
    exact hx

/-- C1: the verdict is decided first-match-wins from the strong-edit flag
and the final (clamped) score: `strong_edit_signal` or score < 0.55 gives
likely_fake, otherwise score < 0.82 gives suspicious, otherwise
likely_genuine; and any document whose combined metadata contains a
high-risk editor token has the flag set and is forced to likely_fake. -/
theorem verdict_rule (inp : CheckInput) (txTry : Except String (List Tx))
    (rbErr : Option String) (out : CheckOutput)
    (h : run_basic_checks inp txTry rbErr = Except.ok out) :
    (out.verdict = if strongEditSignal inp = true ∨ out.confidence < 0.55 then "likely_fake"
      else if out.confidence < 0.82 then "suspicious" else "likely_genuine") ∧
    ((high_risk_editors.any (fun x => strIn x (lowerMetaOf inp.producer inp.creator))) = true →
      strongEditSignal inp = true ∧ out.verdict = "likely_fake") := by
  unfold run_basic_checks at h
  by_cases h0 : inp.pagesText.length = 0
  · rw [if_pos h0] at h
    simp at h
  rw [if_neg h0] at h
  by_cases h1 : (checksCore inp txTry rbErr).2.1 = true ∨ clampedScore inp txTry rbErr < 0.55
  · rw [if_pos h1] at h
    injection h with h
    subst h
    rw [checksCore_flag] at h1
    constructor
    · show "likely_fake" =
        if strongEditSignal inp = true ∨ clampedScore inp txTry rbErr < 0.55 then "likely_fake"
        else _
      rw [if_pos h1]
    · intro hx
      exact ⟨metaFlag_of_any _ hx, rfl⟩
  · rw [if_neg h1] at h
    rw [checksCore_flag] at h1
    by_cases h2 : clampedScore inp txTry rbErr < 0.82
    · rw [if_pos h2] at h
      injection h with h
      subst h
      constructor
      · show "suspicious" =
          if strongEditSignal inp = true ∨ clampedScore inp txTry rbErr < 0.55 then "likely_fake"
          else if clampedScore inp txTry rbErr < 0.82 then "suspicious" else "likely_genuine"
        rw [if_neg h1, if_pos h2]
      · intro hx
        exact absurd (Or.inl (metaFlag_of_any _ hx)) h1
    · rw [if_neg h2] at h
      injection h with h
      subst h
      constructor
      · show "likely_genuine" =
          if strongEditSignal inp = true ∨ clampedScore inp txTry rbErr < 0.55 then "likely_fake"
          else if clampedScore inp txTry rbErr < 0.82 then "suspicious" else "likely_genuine"
        rw [if_neg h1, if_neg h2]
      · intro hx
        exact absurd (Or.inl (metaFlag_of_any _ hx)) h1

/-- Witness for C1: a Microsoft Word producer forces likely_fake. -/
theorem verdict_rule_witness : strongEditSignal wordDoc = true ∧ wordOut.verdict = "likely_fake" :=
  (verdict_rule wordDoc (Except.ok []) none wordOut (by with_unfolding_all rfl)).2 (by decide)

/-- C2: the returned confidence is the accumulated (never intermediately
clamped) score clamped exactly once at the end to [0.05, 1.0]; it is never
below 0.05 nor above 1.0, and any pre-clamp score at or below 0.05 (in
particular any negative one) yields exactly 0.05. -/
theorem confidence_clamp (inp : CheckInput) (txTry : Except String (List Tx))
    (rbErr : Option String) (out : CheckOutput)
    (h : run_basic_checks inp txTry rbErr = Except.ok out) :
    out.confidence = max 0.05 (min (preScore inp txTry rbErr) 1) ∧
    (0.05 : Rat) ≤ out.confidence ∧ out.confidence ≤ 1 ∧
    (preScore inp txTry rbErr ≤ 0.05 → out.confidence = 0.05) := by
  have hc : out.confidence = clampedScore inp txTry rbErr := by
    unfold run_basic_checks at h
    by_cases h0 : inp.pagesText.length = 0
    · rw [if_pos h0] at h
      simp at h
    rw [if_neg h0] at h
    by_cases h1 : (checksCore inp txTry rbErr).2.1 = true ∨ clampedScore inp txTry rbErr < 0.55
    · rw [if_pos h1] at h
      injection h with h
      subst h
      rfl
    · rw [if_neg h1] at h
      by_cases h2 : clampedScore inp txTry rbErr < 0.82
      · rw [if_pos h2] at h
        injection h with h
        subst h
        rfl
      · rw [if_neg h2] at h
        injection h with h
        subst h
        rfl
  rw [hc]
  refine ⟨rfl, le_max_left _ _, ?_, ?_⟩
  · exact max_le (by norm_num) (min_le_right _ _)
  · intro hp
    exact max_eq_left (le_trans (min_le_left _ _) hp)

/-- Witness for C2: the heavily penalised document accumulates a negative
pre-clamp score and its confidence clamps to exactly 0.05. -/
theorem confidence_clamp_witness : heavyOut.confidence = 0.05 :=
  (confidence_clamp heavyDoc (Except.ok txBad) none heavyOut
    (by with_unfolding_all rfl)).2.2.2 (of_decide_eq_true (by with_unfolding_all rfl))

/-- The counter component of the mismatch fold counts exactly the
mismatching adjacent pairs. -/
theorem cmStep_foldl_fst (l : List (Tx × Tx)) (m : Nat) (w : List String) :
    (l.foldl cmStep (m, w)).1 = m + l.countP (fun pc => pairMismatch pc.1 pc.2) := by
  induction l generalizing m w with
  | nil => simp
  | cons pc rest ih =>
    rw [List.foldl_cons, List.countP_cons]
    by_cases h : pairMismatch pc.1 pc.2 = true
    · rw [show cmStep (m, w) pc = (m + 1,
        if m + 1 ≤ 5 then w ++ [mismatchMsg pc.2 (expectedOf pc.1 pc.2)] else w) by
          simp [cmStep, h]]
      rw [ih, h]
      simp
      omega
    · rw [show cmStep (m, w) pc = (m, w) by simp [cmStep, h]]
      rw [ih]
      simp [h]

/-- C3: for at least 3 rows, mismatches are counted over the adjacent
pairs of the encounter order and of the reversed order (mismatch =
|prev.balance + curr.credit - curr.debit - curr.balance| > 0.01); the
warnings of the orientation with strictly fewer mismatches are returned
(ties favouring the encounter order), plus the truncation summary when the
chosen count is at least 5; the concrete 5-row sequence `ex5`, consistent
only in reversed order, yields the reversed orientation and zero mismatch
messages. -/
theorem orientation_selection (rows : List Tx) (h : 3 ≤ rows.length) :
    ((_count_mismatches rows).1 =
      (rows.zip rows.tail).countP (fun pc => pairMismatch pc.1 pc.2)) ∧
    ((_count_mismatches rows.reverse).1 < (_count_mismatches rows).1 →
      running_balance_check_rows rows = (_count_mismatches rows.reverse).2 ++
        (if 5 ≤ (_count_mismatches rows.reverse).1 then [manyMsg] else [])) ∧
    (¬ (_count_mismatches rows.reverse).1 < (_count_mismatches rows).1 →
      running_balance_check_rows rows = (_count_mismatches rows).2 ++
        (if 5 ≤ (_count_mismatches rows).1 then [manyMsg] else [])) ∧
    (0 < (_count_mismatches ex5).1 ∧ (_count_mismatches ex5.reverse).1 = 0 ∧
      running_balance_check_rows ex5 = []) := by
  have hlen : ¬ rows.length < 3 := by omega
  refine ⟨?_, ?_, ?_, ?_⟩
  · unfold _count_mismatches
    rw [cmStep_foldl_fst]
    omega
  · intro hlt
    unfold running_balance_check_rows
    rw [if_neg hlen]
    simp only
    rw [if_pos hlt]
    by_cases h5 : 5 ≤ (_count_mismatches rows.reverse).1
    · rw [if_pos h5, if_pos h5]
    · rw [if_neg h5, if_neg h5, List.append_nil]
  · intro hge
    unfold running_balance_check_rows
    rw [if_neg hlen]
    simp only
    rw [if_neg hge]
    by_cases h5 : 5 ≤ (_count_mismatches rows).1
    · rw [if_pos h5, if_pos h5]
    · rw [if_neg h5, if_neg h5, List.append_nil]
  · refine ⟨?_, ?_, ?_⟩
    · exact of_decide_eq_true (by with_unfolding_all rfl)
    · with_unfolding_all rfl
    · with_unfolding_all rfl

/-- Witness for C3 at the concrete 5-row reversed-consistent sequence. -/
theorem orientation_selection_witness : running_balance_check_rows ex5 = [] :=
  (orientation_selection ex5 (by decide)).2.2.2.2.2

/-- C4 counterexample: with exactly two extracted rows the verifier
returns the single (non-empty) insufficient-data warning, and the
aggregator therefore DOES reduce the score by the 0.30 running-balance
penalty (from 1 to 0.70), contrary to the claim that no such reduction
occurs for fewer than 3 rows. -/
theorem insufficient_rows_scored : running_balance_check_rows rows2 = [insufficientMsg] ∧
    (transactionsStep (Except.ok rows2) none initSt).score = 1 - 0.30 := by
  constructor
  · with_unfolding_all rfl
  · with_unfolding_all rfl

/-- C4 (amended): for at least 1 and fewer than 3 extracted rows the
verifier returns exactly one insufficient-data warning and zero mismatch
messages, and — the warning list being non-empty — the aggregator still
applies the 0.30 running-balance penalty to the score. -/
theorem insufficient_rows_amended (rows : List Tx) (st : St)
    (h1 : 1 ≤ rows.length) (h2 : rows.length < 3) :
    running_balance_check_rows rows = [insufficientMsg] ∧
    transactionsStep (Except.ok rows) none st =
      ⟨st.score - 0.30, st.reasons ++ [insufficientMsg],
       {st.sections with transactions := st.sections.transactions ++ [insufficientMsg]}⟩ := by
  have hr : running_balance_check_rows rows = [insufficientMsg] := by
    unfold running_balance_check_rows
    rw [if_pos h2]
  refine ⟨hr, ?_⟩
  have hne : rows ≠ [] := by
    cases rows
    · simp at h1
    · simp
  simp [transactionsStep, hne, hr]

/-- Witness for C4's amended claim at the concrete two-row sequence. -/
theorem insufficient_rows_amended_witness :
    running_balance_check_rows rows2 = [insufficientMsg] ∧
    transactionsStep (Except.ok rows2) none initSt =
      ⟨(1 : Rat) - 0.30, [] ++ [insufficientMsg], ⟨[], [], [], [] ++ [insufficientMsg], []⟩⟩ :=
  insufficient_rows_amended rows2 initSt (by decide) (by decide)

/-- A row whose balance cell does not parse produces no transaction. -/
theorem extractRow_balance_none (pageIdx rowIdx : Nat)
    (dateIdx debitIdx creditIdx amountIdx : Option Nat) (balanceIdx : Nat) (row : List Cell)
    (hb : _to_money (row.getD balanceIdx none) = none) :
    extractRow pageIdx rowIdx dateIdx debitIdx creditIdx amountIdx balanceIdx row = none := by
  unfold extractRow
  split
  · rfl
  · rw [hb]

/-- An emitted transaction's balance is the parsed balance cell. -/
theorem extractRow_balance_some (pageIdx rowIdx : Nat)
    (dateIdx debitIdx creditIdx amountIdx : Option Nat) (balanceIdx : Nat) (row : List Cell)
    (tx : Tx)
    (h : extractRow pageIdx rowIdx dateIdx debitIdx creditIdx amountIdx balanceIdx row = some tx) :
    _to_money (row.getD balanceIdx none) = some tx.balance := by
  unfold extractRow at h
  split at h
  · simp at h
  · rcases hm : _to_money (row.getD balanceIdx none) with _ | bal
    · rw [hm] at h
      simp at h
    · rw [hm] at h
      simp only at h
      injection h with h
      subst h
      rfl

/-- A table whose header row has no balance cell is skipped. -/
theorem extractTable_no_balance (pageIdx : Nat) (table : TableData)
    (hall : ∀ h ∈ headersOf table, strIn "balance" h = false) :
    extractTable pageIdx table = [] := by
  unfold extractTable
  split
  · rfl
  · simp only [List.findIdx?_eq_none_iff.mpr hall]

/-- C6: `extract_transactions_pdfplumber` skips entirely any table whose
normalised header row contains no cell containing "balance"; within a kept
table a data row whose balance cell does not parse is discarded (no
partial row), an emitted row's balance is exactly the parsed cell, and
hence every emitted transaction carries a parsed numeric balance. -/
theorem balance_column_mandatory :
    (∀ (pageIdx : Nat) (table : TableData),
      (∀ h ∈ headersOf table, strIn "balance" h = false) → extractTable pageIdx table = []) ∧
    (∀ (pageIdx rowIdx : Nat) (dateIdx debitIdx creditIdx amountIdx : Option Nat)
      (balanceIdx : Nat) (row : List Cell),
      _to_money (row.getD balanceIdx none) = none →
      extractRow pageIdx rowIdx dateIdx debitIdx creditIdx amountIdx balanceIdx row = none) ∧
    (∀ (pageIdx rowIdx : Nat) (dateIdx debitIdx creditIdx amountIdx : Option Nat)
      (balanceIdx : Nat) (row : List Cell) (tx : Tx),
      extractRow pageIdx rowIdx dateIdx debitIdx creditIdx amountIdx balanceIdx row = some tx →
      _to_money (row.getD balanceIdx none) = some tx.balance) ∧
    (∀ (pages : List (List TableData)) (tx : Tx), tx ∈ extract_transactions_pdfplumber pages →
      ∃ cell : Cell, _to_money cell = some tx.balance) := by
  refine ⟨extractTable_no_balance, extractRow_balance_none, extractRow_balance_some, ?_⟩
  intro pages tx h
  unfold extract_transactions_pdfplumber at h
  rw [List.mem_flatMap] at h
  obtain ⟨pt, _, h⟩ := h
  rw [List.mem_flatMap] at h
  obtain ⟨table, _, h⟩ := h
  unfold extractTable at h
  split at h
  · simp at h
  · simp only at h
    rcases hf : (headersOf table).findIdx? (fun hd => strIn "balance" hd) with _ | bIdx
    · rw [hf] at h
      simp at h
    · rw [hf] at h
      simp only [List.mem_filterMap] at h
      obtain ⟨ir, _, hr⟩ := h
      exact ⟨_, extractRow_balance_some _ _ _ _ _ _ _ _ _ hr⟩

/-- Witness for C6: the concrete balance-free table is skipped. -/
theorem balance_column_mandatory_witness : extractTable 0 tblNoBal = [] :=
  balance_column_mandatory.1 0 tblNoBal (by decide)

/-- C7: when an amount column exists and its cell parses, it overrides the
independently parsed debit/credit with exactly the source's asymmetry: a
negative amount sets debit = |amount| (credit stays the independently
parsed value), and a non-negative amount sets credit = amount without
resetting the previously parsed debit to 0. -/
theorem amount_override_rule (pageIdx rowIdx : Nat) (dateIdx debitIdx creditIdx : Option Nat)
    (i balanceIdx : Nat) (row : List Cell) (a : Rat) (tx : Tx)
    (hi : i < row.length) (ha : _to_money (row.getD i none) = some a)
    (ht : extractRow pageIdx rowIdx dateIdx debitIdx creditIdx (some i) balanceIdx row = some tx) :
    (a < 0 → tx.debit = |a| ∧ tx.credit = parsedAbs creditIdx row) ∧
    (0 ≤ a → tx.credit = a ∧ tx.debit = parsedAbs debitIdx row) := by
  have hov : amountOverride (some i) row (parsedAbs debitIdx row) (parsedAbs creditIdx row) =
      if a < 0 then (|a|, parsedAbs creditIdx row) else (parsedAbs debitIdx row, a) := by
    simp only [amountOverride]
    rw [if_pos hi, ha]
  unfold extractRow at ht
  split at ht
  · simp at ht
  · rcases hb : _to_money (row.getD balanceIdx none) with _ | bal
    · rw [hb] at ht
      simp at ht
    · rw [hb] at ht
      simp only at ht
      injection ht with ht
      constructor
      · intro hneg
        rw [← ht]
        simp only
        rw [hov, if_pos hneg]
        exact ⟨rfl, rfl⟩
      · intro hpos
        rw [← ht]
        simp only
        rw [hov, if_neg (not_lt.mpr hpos)]
        exact ⟨rfl, rfl⟩

/-- Witness for C7: a non-negative parsed amount sets credit and leaves
the (absent, hence 0) debit column result untouched. -/
theorem amount_override_rule_witness :
    ((extractRow 0 2 none none none (some 0) 1 rowAmt).getD ⟨0, 0, 0, 0, 0, none⟩).credit = 5 ∧
    ((extractRow 0 2 none none none (some 0) 1 rowAmt).getD ⟨0, 0, 0, 0, 0, none⟩).debit =
      parsedAbs none rowAmt :=
  (amount_override_rule 0 2 none none none 0 1 rowAmt 5
    ((extractRow 0 2 none none none (some 0) 1 rowAmt).getD ⟨0, 0, 0, 0, 0, none⟩)
    (by decide) (by with_unfolding_all rfl) (by with_unfolding_all rfl)).2 (by norm_num)

/-- A letter outside float syntax survives every transformation of the
money parser and is not an accepted float character. -/
theorem badLetter_facts (c : Char) (h : isBadLetter c = true) :
    c.isWhitespace = false ∧ floatAllowedChar c = false ∧
    (!(c == ',' || c == '£' || c == ' ')) = true ∧ c ≠ '(' ∧ c ≠ ')' := by
  have hm : c ∈ badLetterList := of_decide_eq_true h
  fin_cases hm <;> exact ⟨rfl, rfl, rfl, by decide, by decide⟩

/-- `dropWhile` keeps every element the predicate rejects. -/
theorem mem_dropWhile_of_not (p : Char → Bool) (c : Char) (cs : List Char)
    (h : c ∈ cs) (hc : p c = false) : c ∈ cs.dropWhile p := by
  induction cs with
  | nil => simp at h
  | cons a t ih =>
    rw [List.dropWhile_cons]
    by_cases hpa : p a = true
    · rw [if_pos hpa]
      rcases List.mem_cons.mp h with rfl | hct
      · rw [hc] at hpa
        simp at hpa
      · exact ih hct
    · rw [if_neg hpa]
      exact h

/-- Trimming keeps every non-whitespace character. -/
theorem mem_trimL (c : Char) (cs : List Char) (h : c ∈ cs)
    (hw : c.isWhitespace = false) : c ∈ trimL cs := by
  unfold trimL
  exact List.mem_reverse.mpr (mem_dropWhile_of_not _ _ _
    (List.mem_reverse.mpr (mem_dropWhile_of_not _ _ _ h hw)) hw)

/-- The parenthesis negation keeps every character other than the two
parentheses it may remove. -/
theorem mem_parenNeg (c : Char) (cs : List Char) (h : c ∈ cs)
    (h1 : c ≠ '(') (h2 : c ≠ ')') : c ∈ parenNeg cs := by
  unfold parenNeg
  split
  · rename_i hcond
    cases cs with
    | nil => simp at h
    | cons a t =>
      have ha : a = '(' := hcond.1
      have hlast : t.getLastD a = ')' := by
        have := hcond.2
        rwa [List.getLastD_cons] at this
      rcases List.mem_cons.mp h with rfl | hct
      · exact absurd ha h1
      · have htne : t ≠ [] := by
          intro hnil
          rw [hnil] at hlast
          simp only [List.getLastD_nil] at hlast
          rw [ha] at hlast
          exact absurd hlast (by decide)
        have hgl : t.getLast htne = ')' := by
          rw [← hlast, List.getLastD_eq_getLast?, List.getLast?_eq_getLast t htne]
          rfl
        have hsplit := List.dropLast_append_getLast htne
        rw [← hsplit] at hct
        rcases List.mem_append.mp hct with hd | hl
        · show c ∈ '-' :: (List.drop 1 (a :: t)).dropLast
          exact List.mem_cons_of_mem _ hd
        · rw [hgl] at hl
          simp at hl
          exact absurd hl h2
  · exact h

/-- Characters of the mantissa/exponent split. -/
theorem mem_splitAtExpChar (cs : List Char) (c : Char) (h : c ∈ cs) :
    c ∈ (splitAtExpChar cs).1 ∨
    (∃ es, (splitAtExpChar cs).2 = some es ∧ c ∈ es) ∨ c = 'e' ∨ c = 'E' := by
  induction cs with
  | nil => simp at h
  | cons a t ih =>
    by_cases he : a = 'e' ∨ a = 'E'
    · rw [show splitAtExpChar (a :: t) = ([], some t) by simp [splitAtExpChar, he]]
      rcases List.mem_cons.mp h with rfl | hct
      · right
        right
        exact he
      · right
        left
        exact ⟨t, rfl, hct⟩
    · rw [show splitAtExpChar (a :: t) =
        (a :: (splitAtExpChar t).1, (splitAtExpChar t).2) by simp [splitAtExpChar, he]]
      rcases List.mem_cons.mp h with rfl | hct
      · left
        exact List.mem_cons_self _ _
      · rcases ih hct with h1 | h2 | h3
        · left
          exact List.mem_cons_of_mem _ h1
        · right
          left
          exact h2
        · right
          right
          exact h3

/-- Characters of the integer/fraction split. -/
theorem mem_splitAtDot (cs : List Char) (c : Char) (h : c ∈ cs) :
    c ∈ (splitAtDot cs).1 ∨ (∃ fp, (splitAtDot cs).2 = some fp ∧ c ∈ fp) ∨ c = '.' := by
  induction cs with
  | nil => simp at h
  | cons a t ih =>
    by_cases he : a = '.'
    · rw [show splitAtDot (a :: t) = ([], some t) by simp [splitAtDot, he]]
      rcases List.mem_cons.mp h with rfl | hct
      · right
        right
        exact he
      · right
        left
        exact ⟨t, rfl, hct⟩
    · rw [show splitAtDot (a :: t) =
        (a :: (splitAtDot t).1, (splitAtDot t).2) by simp [splitAtDot, he]]
      rcases List.mem_cons.mp h with rfl | hct
      · left
        exact List.mem_cons_self _ _
      · rcases ih hct with h1 | h2 | h3
        · left
          exact List.mem_cons_of_mem _ h1
        · right
          left
          exact h2
        · right
          right
          exact h3

/-- Characters surviving `dropSign`. -/
theorem mem_dropSign (cs : List Char) (c : Char) (h : c ∈ cs) :
    c ∈ dropSign cs ∨ c = '+' ∨ c = '-' := by
  cases cs with
  | nil => simp at h
  | cons a t =>
    by_cases hs : a = '+' ∨ a = '-'
    · rw [show dropSign (a :: t) = t by simp [dropSign, hs]]
      rcases List.mem_cons.mp h with rfl | hct
      · right
        exact hs
      · left
        exact hct
    · rw [show dropSign (a :: t) = a :: t by simp [dropSign, hs]]
      left
      exact h

/-- A valid digit part contains only digits and underscores. -/
theorem vdp_chars (cs : List Char) (c : Char) (h : validDigitPart cs = true)
    (hc : c ∈ cs) : c.isDigit = true ∨ c = '_' := by
  simp only [validDigitPart, Bool.and_eq_true] at h
  have hall := h.1.1.1.2
  have := List.all_eq_true.mp hall c hc
  rcases Bool.or_eq_true _ _ |>.mp this with hd | hu
  · left
    exact hd
  · right
    exact eq_of_beq hu

/-- A valid mantissa contains only digits, underscores and the dot. -/
theorem validMantissa_chars (m : List Char) (c : Char) (h : validMantissa m = true)
    (hc : c ∈ m) : c.isDigit = true ∨ c = '_' ∨ c = '.' := by
  rcases mem_splitAtDot m c hc with h1 | ⟨fp, hfp, hcf⟩ | rfl
  · rcases hd : (splitAtDot m).2 with _ | fp
    · rw [show validMantissa m = validDigitPart (splitAtDot m).1 by
        simp [validMantissa, hd]] at h
      rcases vdp_chars _ _ h h1 with h2 | h2
      · left
        exact h2
      · right
        left
        exact h2
    · rw [show validMantissa m = ((validDigitPart (splitAtDot m).1 &&
        (fp.isEmpty || validDigitPart fp)) ||
        ((splitAtDot m).1.isEmpty && validDigitPart fp)) by simp [validMantissa, hd]] at h
      rcases Bool.or_eq_true _ _ |>.mp h with hx | hx
      · rcases vdp_chars _ _ (Bool.and_eq_true _ _ |>.mp hx).1 h1 with h2 | h2
        · left
          exact h2
        · right
          left
          exact h2
      · have hemp := (Bool.and_eq_true _ _ |>.mp hx).1
        rw [List.isEmpty_iff] at hemp
        rw [hemp] at h1
        simp at h1
  · rw [show validMantissa m = ((validDigitPart (splitAtDot m).1 &&
      (fp.isEmpty || validDigitPart fp)) ||
      ((splitAtDot m).1.isEmpty && validDigitPart fp)) by simp [validMantissa, hfp]] at h
    rcases Bool.or_eq_true _ _ |>.mp h with hx | hx
    · rcases Bool.or_eq_true _ _ |>.mp (Bool.and_eq_true _ _ |>.mp hx).2 with he | hv
      · rw [List.isEmpty_iff] at he
        rw [he] at hcf
        simp at hcf
      · rcases vdp_chars _ _ hv hcf with h2 | h2
        · left
          exact h2
        · right
          left
          exact h2
    · rcases vdp_chars _ _ (Bool.and_eq_true _ _ |>.mp hx).2 hcf with h2 | h2
      · left
        exact h2
      · right
        left
        exact h2
  · right
    right
    rfl

/-- Every character of a valid finite float literal is an accepted float
character. -/
theorem validFloat_chars (cs : List Char) (c : Char) (h : validFloatChars cs = true)
    (hc : c ∈ cs) : floatAllowedChar c = true := by
  have hdig : ∀ d : Char, d.isDigit = true → floatAllowedChar d = true := by
    intro d hd
    simp [floatAllowedChar, hd]
  rcases mem_dropSign cs c hc with h1 | rfl | rfl
  · rcases mem_splitAtExpChar (dropSign cs) c h1 with h2 | ⟨es, hes, hce⟩ | rfl | rfl
    · have hm : validMantissa (splitAtExpChar (dropSign cs)).1 = true := by
        rcases hd : (splitAtExpChar (dropSign cs)).2 with _ | ex
        · rw [show validFloatChars cs = validMantissa (splitAtExpChar (dropSign cs)).1 by
            simp [validFloatChars, hd]] at h
          exact h
        · rw [show validFloatChars cs = (validMantissa (splitAtExpChar (dropSign cs)).1 &&
            validExpPart ex) by simp [validFloatChars, hd]] at h
          exact (Bool.and_eq_true _ _ |>.mp h).1
      rcases validMantissa_chars _ _ hm h2 with h3 | h3 | h3
      · exact hdig c h3
      · rw [h3]
        decide
      · rw [h3]
        decide
    · have hx : validExpPart es = true := by
        rw [show validFloatChars cs = (validMantissa (splitAtExpChar (dropSign cs)).1 &&
          validExpPart es) by simp [validFloatChars, hes]] at h
        exact (Bool.and_eq_true _ _ |>.mp h).2
      unfold validExpPart at hx
      rcases mem_dropSign es c hce with h2 | rfl | rfl
      · rcases vdp_chars _ _ hx h2 with h3 | h3
        · exact hdig c h3
        · rw [h3]
          decide
      · decide
      · decide
    · decide
    · decide
  · decide
  · decide

/-- Any string containing a letter with no role in float syntax parses to
`None` in the money parser. -/
theorem _to_money_bad_letter (s : String) (c : Char) (hc : c ∈ s.data)
    (hb : isBadLetter c = true) : _to_money (some s) = none := by
  obtain ⟨hw, hfa, hk, hp1, hp2⟩ := badLetter_facts c hb
  have hbody : _to_money (some s) = (if s.data = [] then none
      else if trimL s.data = [] then none
      else floatOfChars? (parenNeg (stripSyms (trimL s.data)))) := rfl
  rw [hbody]
  have h1 : s.data ≠ [] := by
    intro h
    rw [h] at hc
    simp at hc
  rw [if_neg h1]
  have hct : c ∈ trimL s.data := mem_trimL _ _ hc hw
  have h2 : trimL s.data ≠ [] := by
    intro h
    rw [h] at hct
    simp at hct
  rw [if_neg h2]
  have hcs : c ∈ stripSyms (trimL s.data) := List.mem_filter.mpr ⟨hct, hk⟩
  have hcp : c ∈ parenNeg (stripSyms (trimL s.data)) := mem_parenNeg _ _ hcs hp1 hp2
  have hctt : c ∈ trimL (parenNeg (stripSyms (trimL s.data))) := mem_trimL _ _ hcp hw
  have hv : ¬ validFloatChars (trimL (parenNeg (stripSyms (trimL s.data)))) = true := by
    intro hvt
    have := validFloat_chars _ _ hvt hctt
    rw [hfa] at this
    simp at this
  unfold floatOfChars?
  rw [if_neg hv]

/-- C5 counterexample: `"1e3"` contains the letter `e` yet parses to
1000.0 (Python float exponent syntax), refuting "any input containing
letters parses to None". -/
theorem money_parser_letter_parses :
    ('e' ∈ "1e3".data ∧ ('e').isAlpha = true) ∧ _to_money (some "1e3") = some 1000 :=
  ⟨by decide, by with_unfolding_all rfl⟩

/-- C5 (amended): the money parser trims, strips commas/pound
signs/spaces, negates a parenthesised value and casts to float, so
`"(1,234.56)"` gives -1234.56, `"£45.00"` gives 45.00, and empty/None give
None; and any input containing a letter that plays no role in Python float
syntax (i.e. excepting the exponent markers and the letters of inf/nan)
parses to None. -/
theorem money_parser_rule :
    _to_money (some "(1,234.56)") = some (-(1234.56 : Rat)) ∧
    _to_money (some "£45.00") = some 45 ∧
    _to_money (some "") = none ∧
    _to_money none = none ∧
    (∀ (s : String) (c : Char), c ∈ s.data → isBadLetter c = true →
      _to_money (some s) = none) :=
  ⟨by with_unfolding_all rfl, by with_unfolding_all rfl, by with_unfolding_all rfl, rfl,
   _to_money_bad_letter⟩

/-- Witness for C5's amended claim: `"12x"` contains the float-irrelevant
letter x and parses to None. -/
theorem money_parser_rule_witness : _to_money (some "12x") = none :=
  money_parser_rule.2.2.2.2 "12x" 'x' (by decide) (by decide)
